import Mathlib

/-!
Shallow embedding of `src/models/image.rs` (the image-variant resolver of
the neikos.moe application) and verification of its specification.

Modelling conventions:
* Rust `i32`/`i64` values are `Int`; the only places where machine width
  matters are the casts `width as u32` (modelled by `toU32`) and
  `dims.0 as i32` on a `u32` (modelled by `u32ToI32`).
* Fallible Rust code (`Result<_, FurryError>`) becomes `Except FurryError _`;
  code that can also panic (`expect`, the out-of-range enum matches) returns
  `RunResult`, whose `panicked` constructor models a process abort.
* The external collaborators (the image codec, the filesystem, the clock)
  are an explicit `Env` of oracle functions, and the relational store is an
  explicit `DB` value threaded through the operations.  The model DB never
  fails, so the `Err` arms of the diesel queries are not reachable here;
  failure of the storage write is injectable through `Env.createAndSave`.
* The `created_at` / `updated_at` columns are set by the database and never
  read by this module, so they are omitted from the record.
-/

deriving instance DecidableEq for Except

/-- The error type of the application (`error::FurryError`).  The claims only
propagate errors, never inspect them, so a tagged message suffices. -/
structure FurryError where
  msg : String
deriving DecidableEq, Repr

/-- `ImageType` from the source: how the `path` column is interpreted. -/
inductive ImageType where
  | Local
  | Base64
deriving DecidableEq, Repr

/-- `ImageType::from_i32`.  The source panics on an out-of-range value;
`none` models that panic. -/
def ImageType.from_i32 (i : Int) : Option ImageType :=
  if i = 0 then some .Local
  else if i = 1 then some .Base64
  else none

/-- The `typ as i32` cast (the `#[repr(i32)]` discriminant). -/
def ImageType.toCode : ImageType → Int
  | .Local => 0
  | .Base64 => 1

/-- `ImageFormat` from the source. -/
inductive ImageFormat where
  | PNG
  | GIF
  | JPEG
deriving DecidableEq, Repr

/-- `ImageFormat::from_i32`; `none` models the panic on an out-of-range
value. -/
def ImageFormat.from_i32 (i : Int) : Option ImageFormat :=
  if i = 0 then some .PNG
  else if i = 1 then some .GIF
  else if i = 2 then some .JPEG
  else none

/-- The `fmt as i32` cast. -/
def ImageFormat.toCode : ImageFormat → Int
  | .PNG => 0
  | .GIF => 1
  | .JPEG => 2

/-- `ImageFormat::as_str`: the file extension used in generated paths. -/
def ImageFormat.as_str : ImageFormat → String
  | .PNG => "png"
  | .GIF => "gif"
  | .JPEG => "jpg"

/-- The persisted `Image` record (diesel `Queryable`).  Field order follows
the source; the write-only timestamp columns are omitted (see header). -/
structure Image where
  id : Int
  host_type : Int
  path : String
  width : Int
  height : Int
  parent_id : Option Int
  wanted_height : Option Int
  wanted_width : Option Int
  format : Int
deriving DecidableEq, Repr

/-- `Image::get_path`.  `none` models the panic of `ImageType::from_i32` on
a corrupt `host_type`. -/
def Image.get_path (self : Image) : Option String :=
  match ImageType.from_i32 self.host_type with
  | some .Local => some self.path
  | some .Base64 => some ("data:image/png;base64," ++ self.path)
  | none => none

/-- `Image::get_format`.  `none` models the panic on a corrupt `format`. -/
def Image.get_format (self : Image) : Option ImageFormat :=
  ImageFormat.from_i32 self.format

/-- The `NewImage` insertable struct. -/
structure NewImage where
  host_type : Int
  path : String
  width : Int
  height : Int
  parent_id : Option Int
  wanted_height : Option Int
  wanted_width : Option Int
  format : Int
deriving DecidableEq, Repr

/-- `NewImage::new`: note that it leaves `width` and `height` at `0`. -/
def NewImage.new (typ : ImageType) (path : String) : NewImage :=
  { host_type := typ.toCode
    path := path
    width := 0
    height := 0
    parent_id := none
    wanted_height := none
    wanted_width := none
    format := 0 }

/-- The relational store: the `images` table in insertion order, plus the
next id the sequence will assign. -/
structure DB where
  rows : List Image
  nextId : Int
deriving DecidableEq, Repr

/-- Turning an insertable struct into a row once the database assigns an
id. -/
def NewImage.toRow (n : NewImage) (i : Int) : Image :=
  { id := i
    host_type := n.host_type
    path := n.path
    width := n.width
    height := n.height
    parent_id := n.parent_id
    wanted_height := n.wanted_height
    wanted_width := n.wanted_width
    format := n.format }

/-- `Image::create_from`: `insert(&new).into(images).returning(id)`.  The
model store is infallible, so the `Result` wrapper of the source is dropped;
the assigned id is returned together with the updated store. -/
def Image.create_from (db : DB) (new : NewImage) : Int × DB :=
  (db.nextId, ⟨db.rows ++ [new.toRow db.nextId], db.nextId + 1⟩)

/-- The free function `find`: `images.limit(1).filter(id.eq(uid))`.  No
order clause, so the model returns the first row in table order. -/
def find (db : DB) (uid : Int) : Option Image :=
  db.rows.find? (fun r => r.id == uid)

/-- The boolean filter of `find_from_image`, translated clause by clause
from the diesel query.  SQL `NULL`-comparison semantics make
`wanted_width.eq(w)` false on a `NULL` column, which is exactly
`Option` equality against `some w`. -/
def childMatches (r : Image) (uid w h : Int) : Bool :=
  r.parent_id == some uid &&
    ((r.wanted_width == none && (r.width == w || r.height == h)) ||
     (r.wanted_width == some w || r.wanted_height == some h))

/-- Stable insertion of a row into a list kept in descending `height`
order. -/
def insertByHeight (r : Image) : List Image → List Image
  | [] => [r]
  | x :: xs => if x.height < r.height then r :: x :: xs else x :: insertByHeight r xs

/-- Stable sort by `height` descending.  The source chains
`.order(width.desc()).order(height.desc())`, and diesel `order` REPLACES any
previously set order clause (appending needs `then_order_by`), so the SQL
that runs carries `ORDER BY height DESC` only; ties are left in table
order here (SQL leaves them unspecified). -/
def sortByHeightDesc : List Image → List Image
  | [] => []
  | x :: xs => insertByHeight x (sortByHeightDesc xs)

/-- The free function `find_from_image`: filter children of `uid` by the
match rule, order (effectively by `height` descending, see
`sortByHeightDesc`), `limit(1)`. -/
def find_from_image (db : DB) (uid w h : Int) : Option Image :=
  (sortByHeightDesc (db.rows.filter (fun r => childMatches r uid w h))).head?

/-- The Rust cast `i as u32` on an `i32` value. -/
def toU32 (i : Int) : Nat :=
  (i % (2 : Int) ^ 32).toNat

/-- The Rust cast `n as i32` on a `u32` value. -/
def u32ToI32 (n : Nat) : Int :=
  if n % 2 ^ 32 < 2 ^ 31 then ((n % 2 ^ 32 : Nat) : Int)
  else ((n % 2 ^ 32 : Nat) : Int) - 2 ^ 32

/-- The codec capability `image::DynamicImage`, abstracted to what the
resolver observes: its pixel dimensions (`u32` in the source). -/
structure DynamicImage where
  width : Nat
  height : Nat
deriving DecidableEq, Repr

/-- The external collaborators of the resolver: codec, filesystem and
clock, as oracle functions.
* `loadLocal p f` is `File::open(p)` followed by `image::load(_, f)`;
* `loadBase64 s` is `s.from_base64()` followed by `image::load_from_memory`;
* `resize` is `DynamicImage::resize(w, h, Lanczos3)` (it may not return
  exactly the requested dimensions: the codec preserves aspect ratio);
* `encodePng img` is `img.save(&mut buf, PNG)` followed by the standard
  base64 encoding of the buffer, yielding the inline payload;
* `createAndSave p img fmt` is `File::create(p)` followed by
  `img.save(&mut file, fmt)`;
* `nowSecs` is `SystemTime::now().duration_since(UNIX_EPOCH).as_secs()`. -/
structure Env where
  loadLocal : String → ImageFormat → Except FurryError DynamicImage
  loadBase64 : String → Except FurryError DynamicImage
  resize : DynamicImage → Nat → Nat → DynamicImage
  encodePng : DynamicImage → Except FurryError String
  createAndSave : String → DynamicImage → ImageFormat → Except FurryError Unit
  nowSecs : Nat

/-- The generated upload path of the file-backed branch:
`format!("./assets/uploads/{}_{}-{}-{}.{}", w, h, now, suffix, ext)`. -/
def genPath (w h ts : Nat) (suffix ext : String) : String :=
  "./assets/uploads/" ++ toString w ++ "_" ++ toString h ++ "-" ++
    toString ts ++ "-" ++ suffix ++ "." ++ ext

/-- `NewImage::create_from_dynamic_image`.  Small images (both dimensions
strictly below 200) are PNG-encoded and base64-inlined; larger ones are
written to a generated path with the requested format, and the stored
locator drops the leading byte (the `.`) of that path.  In both branches
the record `format` column is set from the REQUESTED format `fmt`. -/
def NewImage.create_from_dynamic_image (env : Env) (img : DynamicImage)
    (suffix : String) (fmt : ImageFormat) : Except FurryError NewImage :=
  if img.width < 200 ∧ img.height < 200 then
    match env.encodePng img with
    | .error e => .error e
    | .ok b64 =>
      .ok { host_type := ImageType.Base64.toCode
            path := b64
            width := u32ToI32 img.width
            height := u32ToI32 img.height
            parent_id := none
            wanted_height := none
            wanted_width := none
            format := fmt.toCode }
  else
    match env.createAndSave
        (genPath img.width img.height env.nowSecs suffix fmt.as_str) img fmt with
    | .error e => .error e
    | .ok _ =>
      .ok { host_type := ImageType.Local.toCode
            path := (genPath img.width img.height env.nowSecs suffix fmt.as_str).drop 1
            width := u32ToI32 img.width
            height := u32ToI32 img.height
            parent_id := none
            wanted_height := none
            wanted_width := none
            format := fmt.toCode }

/-- Result of an operation that may return a value, return a tagged error,
or abort the process. -/
inductive RunResult (α : Type) where
  | ok (a : α)
  | err (e : FurryError)
  | panicked (msg : String)
deriving DecidableEq, Repr

/-- The tail of `NewImage::create_from_image_with_size` once the parent is
decoded: resize (with the `as u32` casts of the source), build the new
record with the parent format, then stamp provenance and the wanted
dimensions. -/
def finishResize (env : Env) (img : Image) (image : DynamicImage)
    (f : ImageFormat) (width height : Int) : RunResult NewImage :=
  match NewImage.create_from_dynamic_image env
      (env.resize image (toU32 width) (toU32 height))
      ("orig_" ++ toString img.id) f with
  | .error e => .err e
  | .ok n =>
    .ok { n with
          parent_id := some img.id
          wanted_height := some height
          wanted_width := some width }

/-- `NewImage::create_from_image_with_size`: decode the parent bytes from
their storage (local file or inline base64), then resize and build the new
record.  The `panicked` arms are the out-of-range enum matches of
`ImageType::from_i32` and `Image::get_format`; in the `Local` branch the
source opens the file before decoding the format column, here the two
failure sources are sequenced format-first (both surface identically). -/
def NewImage.create_from_image_with_size (env : Env) (img : Image)
    (width height : Int) : RunResult NewImage :=
  match ImageType.from_i32 img.host_type with
  | none => .panicked "tried to use out of bound image type"
  | some .Local =>
    match ImageFormat.from_i32 img.format with
    | none => .panicked "tried to use out of bound image format"
    | some f =>
      match env.loadLocal ("." ++ img.path) f with
      | .error e => .err e
      | .ok image => finishResize env img image f width height
  | some .Base64 =>
    match env.loadBase64 img.path with
    | .error e => .err e
    | .ok image =>
      match ImageFormat.from_i32 img.format with
      | none => .panicked "tried to use out of bound image format"
      | some f => finishResize env img image f width height

/-- Observable repository effects of one `get_with_size` call, for stating
which lookups and writes a run performs. -/
inductive Effect where
  | lookupChild (pid w h : Int)
  | insertRow (id : Int)
  | readById (id : Int)
deriving DecidableEq, Repr

/-- Result, final store and effect trace of one `get_with_size` call. -/
structure Outcome where
  result : RunResult Image
  db : DB
  trace : List Effect
deriving DecidableEq, Repr

/-- The re-read step after a successful insert:
`find(img_id).map(|x| x.expect("Inserting couldn't have failed"))`.
`none` makes the call abort instead of returning a tagged error. -/
def rereadInserted (o : Option Image) (dbA : DB) (tr : List Effect) : Outcome :=
  match o with
  | some i => ⟨.ok i, dbA, tr⟩
  | none => ⟨.panicked "Inserting could not have failed", dbA, tr⟩

/-- `Image::get_with_size`, the variant resolver.  The model store is
infallible, so the `Err(e) => Err(e)` arm of the source lookup does not
arise here. -/
def Image.get_with_size (env : Env) (db : DB) (self : Image)
    (width height : Int) : Outcome :=
  if self.width > width ∨ self.height > height then
    match find_from_image db self.id width height with
    | some i => ⟨.ok i, db, [.lookupChild self.id width height]⟩
    | none =>
      match NewImage.create_from_image_with_size env self width height with
      | .err e => ⟨.err e, db, [.lookupChild self.id width height]⟩
      | .panicked m => ⟨.panicked m, db, [.lookupChild self.id width height]⟩
      | .ok new_image =>
        rereadInserted
          (find (Image.create_from db new_image).2 (Image.create_from db new_image).1)
          (Image.create_from db new_image).2
          [.lookupChild self.id width height,
            .insertRow (Image.create_from db new_image).1,
            .readById (Image.create_from db new_image).1]
  else
    ⟨.ok self, db, []⟩

/-! ### Concrete fixtures used by witnesses and counterexamples -/

/-- A well-behaved environment: the codec decodes every source to an
800x600 raster, `resize` lands exactly on the requested dimensions,
inline encoding yields a fixed base64 payload, file writes succeed, and
the clock reads 1000 seconds since the epoch. -/
def exEnv : Env :=
  { loadLocal := fun _ _ => .ok ⟨800, 600⟩
    loadBase64 := fun _ => .ok ⟨800, 600⟩
    resize := fun _ w h => ⟨w, h⟩
    encodePng := fun _ => .ok "aW5saW5l"
    createAndSave := fun _ _ _ => .ok ()
    nowSecs := 1000 }

/-- Same environment, but every file write fails. -/
def exEnvFail : Env :=
  { exEnv with createAndSave := fun _ _ _ => .error ⟨"disk full"⟩ }

/-- An original JPEG record, stored inline, 800x600. -/
def exParentJpeg : Image :=
  { id := 1
    host_type := 1
    path := "cGFyZW50"
    width := 800
    height := 600
    parent_id := none
    wanted_height := none
    wanted_width := none
    format := 2 }

/-- The same original, recorded as PNG. -/
def exParentPng : Image :=
  { exParentJpeg with format := 0 }

/-- A store holding just the original record. -/
def exDB1 : DB := ⟨[exParentJpeg], 2⟩

/-- A child of parent 1 with wanted dimensions 40x40, actual 100x50. -/
def ex3a : Image :=
  { id := 2
    host_type := 0
    path := "/assets/uploads/a.png"
    width := 100
    height := 50
    parent_id := some 1
    wanted_height := some 40
    wanted_width := some 40
    format := 0 }

/-- A child of parent 1 with wanted dimensions 40x40, actual 50x60. -/
def ex3b : Image :=
  { id := 3
    host_type := 0
    path := "/assets/uploads/b.png"
    width := 50
    height := 60
    parent_id := some 1
    wanted_height := some 40
    wanted_width := some 40
    format := 0 }

/-- A store with two matching children of parent 1 whose width order and
height order disagree. -/
def exDB3 : DB := ⟨[ex3a, ex3b], 4⟩

/-! ### Helper lemmas on the query model -/

theorem insertByHeight_perm (r : Image) (l : List Image) :
    (insertByHeight r l).Perm (r :: l) := by
  induction l with
  | nil => simp [insertByHeight]
  | cons x xs ih =>
    simp only [insertByHeight]
    split
    · exact List.Perm.refl _
    · exact (List.Perm.cons x ih).trans (List.Perm.swap r x xs)

theorem sortByHeightDesc_perm (l : List Image) :
    (sortByHeightDesc l).Perm l := by
  induction l with
  | nil => exact List.Perm.refl _
  | cons x xs ih =>
    exact (insertByHeight_perm x (sortByHeightDesc xs)).trans (List.Perm.cons x ih)

theorem sortByHeightDesc_nil_iff (l : List Image) :
    sortByHeightDesc l = [] ↔ l = [] := by
  constructor
  · intro h0
    have hlen := (sortByHeightDesc_perm l).length_eq
    rw [h0] at hlen
    exact List.length_eq_zero.mp hlen.symm
  · intro h0
    subst h0
    rfl

theorem head?_mem {l : List Image} {x : Image} (h : l.head? = some x) :
    x ∈ l := by
  cases l with
  | nil => simp at h
  | cons a as =>
    simp only [List.head?_cons, Option.some.injEq] at h
    subst h
    exact List.mem_cons_self a as

theorem find?_append_last {p : Image → Bool} (l : List Image) (x : Image)
    (hl : ∀ r ∈ l, p r = false) (hx : p x = true) :
    (l ++ [x]).find? p = some x := by
  induction l with
  | nil => simp [List.find?, hx]
  | cons a as ih =>
    rw [List.cons_append, List.find?_cons_of_neg]
    · exact ih fun r hr => hl r (List.mem_cons_of_mem a hr)
    · simp [hl a (List.mem_cons_self a as)]

theorem find?_append_isSome {p : Image → Bool} (l : List Image) (x : Image)
    (hx : p x = true) : ∃ y, (l ++ [x]).find? p = some y := by
  induction l with
  | nil => exact ⟨x, by simp [List.find?, hx]⟩
  | cons a as ih =>
    by_cases h : p a = true
    · exact ⟨a, by rw [List.cons_append, List.find?_cons_of_pos _ h]⟩
    · obtain ⟨y, hy⟩ := ih
      refine ⟨y, ?_⟩
      rw [List.cons_append, List.find?_cons_of_neg _ (by simp [h])]
      exact hy

theorem find_some_id {db : DB} {uid : Int} {i : Image}
    (h : find db uid = some i) : i.id = uid := by
  unfold find at h
  have := List.find?_some h
  simpa using this

theorem find_from_image_mem {db : DB} {uid w h : Int} {c : Image}
    (hc : find_from_image db uid w h = some c) :
    c ∈ db.rows ∧ childMatches c uid w h = true := by
  unfold find_from_image at hc
  have hmem := head?_mem hc
  have hmem2 : c ∈ db.rows.filter (fun r => childMatches r uid w h) :=
    (sortByHeightDesc_perm _).mem_iff.mp hmem
  obtain ⟨h1, h2⟩ := List.mem_filter.mp hmem2
  exact ⟨h1, by simpa using h2⟩

theorem find_from_image_none_forall {db : DB} {uid w h : Int}
    (hn : find_from_image db uid w h = none) :
    ∀ r ∈ db.rows, childMatches r uid w h = false := by
  intro r hr
  cases hcm : childMatches r uid w h with
  | false => rfl
  | true =>
    exfalso
    have hmemf : r ∈ db.rows.filter (fun r => childMatches r uid w h) :=
      List.mem_filter.mpr ⟨hr, hcm⟩
    unfold find_from_image at hn
    rw [List.head?_eq_none_iff] at hn
    rw [(sortByHeightDesc_nil_iff _).mp hn] at hmemf
    simp at hmemf

theorem find_from_image_of_mem {db : DB} {uid w h : Int} {r : Image}
    (hr : r ∈ db.rows) (hm : childMatches r uid w h = true) :
    ∃ c, find_from_image db uid w h = some c := by
  unfold find_from_image
  have hne : db.rows.filter (fun r => childMatches r uid w h) ≠ [] := by
    intro h0
    have hin : r ∈ db.rows.filter (fun r => childMatches r uid w h) :=
      List.mem_filter.mpr ⟨hr, by simpa using hm⟩
    rw [h0] at hin
    simp at hin
  have hs : sortByHeightDesc (db.rows.filter (fun r => childMatches r uid w h)) ≠ [] :=
    fun h0 => hne ((sortByHeightDesc_nil_iff _).mp h0)
  cases hsort : sortByHeightDesc (db.rows.filter (fun r => childMatches r uid w h)) with
  | nil => exact absurd hsort hs
  | cons a as => exact ⟨a, rfl⟩

theorem childMatches_toRow {n : NewImage} {i uid w h : Int}
    (hp : n.parent_id = some uid) (hw : n.wanted_width = some w) :
    childMatches (n.toRow i) uid w h = true := by
  simp [childMatches, NewImage.toRow, hp, hw]

theorem find_insert_self {db : DB} (n : NewImage)
    (hfresh : ∀ r ∈ db.rows, r.id ≠ db.nextId) :
    find (Image.create_from db n).2 (Image.create_from db n).1 =
      some (n.toRow db.nextId) := by
  unfold find Image.create_from
  exact find?_append_last db.rows (n.toRow db.nextId)
    (fun r hr => by simpa using hfresh r hr) (by simp [NewImage.toRow])

theorem find_insert_isSome (db : DB) (n : NewImage) :
    ∃ y, find (Image.create_from db n).2 (Image.create_from db n).1 = some y := by
  unfold find Image.create_from
  exact find?_append_isSome db.rows (n.toRow db.nextId) (by simp [NewImage.toRow])

theorem finishResize_ok_fields {env : Env} {img : Image} {image : DynamicImage}
    {f : ImageFormat} {w h : Int} {n : NewImage}
    (hok : finishResize env img image f w h = .ok n) :
    n.parent_id = some img.id ∧ n.wanted_width = some w ∧ n.wanted_height = some h := by
  unfold finishResize at hok
  split at hok
  · simp at hok
  · cases hok
    exact ⟨rfl, rfl, rfl⟩

theorem finishResize_no_panic {env : Env} {img : Image} {image : DynamicImage}
    {f : ImageFormat} {w h : Int} {m : String} :
    finishResize env img image f w h ≠ .panicked m := by
  intro hok
  unfold finishResize at hok
  split at hok
  · simp at hok
  · simp at hok

theorem create_with_size_ok_fields {env : Env} {p : Image} {w h : Int} {n : NewImage}
    (hok : NewImage.create_from_image_with_size env p w h = .ok n) :
    n.parent_id = some p.id ∧ n.wanted_width = some w ∧ n.wanted_height = some h := by
  unfold NewImage.create_from_image_with_size at hok
  split at hok
  · simp at hok
  · split at hok
    · simp at hok
    · split at hok
      · simp at hok
      · exact finishResize_ok_fields hok
  · split at hok
    · simp at hok
    · split at hok
      · simp at hok
      · exact finishResize_ok_fields hok

theorem create_with_size_panic_msg {env : Env} {p : Image} {w h : Int} {m : String}
    (hp : NewImage.create_from_image_with_size env p w h = .panicked m) :
    m = "tried to use out of bound image type" ∨
      m = "tried to use out of bound image format" := by
  unfold NewImage.create_from_image_with_size at hp
  split at hp
  · cases hp; exact Or.inl rfl
  · split at hp
    · cases hp; exact Or.inr rfl
    · split at hp
      · simp at hp
      · exact absurd hp finishResize_no_panic
  · split at hp
    · simp at hp
    · split at hp
      · cases hp; exact Or.inr rfl
      · exact absurd hp finishResize_no_panic

theorem u32ToI32_pos {n : Nat} (h0 : 0 < n) (hb : n < 2 ^ 31) :
    0 < u32ToI32 n := by
  unfold u32ToI32
  have hm : n % 2 ^ 32 = n := Nat.mod_eq_of_lt (lt_trans hb (by norm_num))
  rw [hm, if_pos hb]
  exact_mod_cast h0

theorem genPath_drop_head (w h ts : Nat) (suffix ext : String) :
    ((genPath w h ts suffix ext).drop 1).data.head? = some '/' := by
  unfold genPath
  have hlit : ("./assets/uploads/" : String).data =
      '.' :: '/' :: ("assets/uploads/" : String).data := by decide
  simp only [String.data_drop, String.data_append, hlit, List.cons_append,
    List.drop_succ_cons, List.drop_zero, List.head?_cons]

/-! ### Claim theorems -/

/-- Claim C1: for every record `r` and requested dimensions `(w, h)` with
`r.width ≤ w` and `r.height ≤ h`, `get_with_size` returns `r` unchanged,
performs no child lookup (empty effect trace) and persists no new record
(the store is returned untouched): the resolver never upscales. -/
theorem get_with_size_no_upscale (env : Env) (db : DB) (r : Image) (w h : Int)
    (hw : r.width ≤ w) (hh : r.height ≤ h) :
    r.get_with_size env db w h = ⟨.ok r, db, []⟩ := by
  have hcond : ¬(r.width > w ∨ r.height > h) := by omega
  unfold Image.get_with_size
  rw [if_neg hcond]

/-- Witness for claim C1 at a concrete input: an 800x600 original requested
at 1000x1000 is returned unchanged. -/
theorem get_with_size_no_upscale_witness :
    exParentPng.get_with_size exEnv exDB1 1000 1000 = ⟨.ok exParentPng, exDB1, []⟩ :=
  get_with_size_no_upscale exEnv exDB1 exParentPng 1000 1000 (by decide) (by decide)

/-- Claim C2: the child lookup returns only rows of the store satisfying
the match rule (provenance `parent_id = uid`, and either unset
`wanted_width` with one actual dimension equal to the request, or one
wanted dimension equal to the request), and it returns some row whenever
at least one row satisfies the rule. -/
theorem find_from_image_sound_complete (db : DB) (uid w h : Int) :
    (∀ c, find_from_image db uid w h = some c →
      c ∈ db.rows ∧ childMatches c uid w h = true) ∧
    ((∃ r ∈ db.rows, childMatches r uid w h = true) →
      ∃ c, find_from_image db uid w h = some c) := by
  constructor
  · intro c hc
    exact find_from_image_mem hc
  · rintro ⟨r, hr, hm⟩
    exact find_from_image_of_mem hr hm

/-- Witness for claim C2: the soundness half applied at a concrete store
where the lookup returns `ex3b`. -/
theorem find_from_image_sound_complete_witness :
    ex3b ∈ exDB3.rows ∧ childMatches ex3b 1 40 40 = true :=
  (find_from_image_sound_complete exDB3 1 40 40).1 ex3b (by decide)

/-- Claim C3, evaluated at the failing input.  Both `ex3a` (100x50) and
`ex3b` (50x60) match the lookup for parent 1 and request (40, 40); under
the ordering the specification claims (width descending, then height
descending) the query would return `ex3a`, but diesel `order` replaces any
earlier order clause, so the executed SQL orders by height descending only
and `find_from_image` returns `ex3b`, whose width is smaller. -/
theorem find_from_image_orders_by_height_only :
    find_from_image exDB3 1 40 40 = some ex3b ∧
    childMatches ex3a 1 40 40 = true ∧
    childMatches ex3b 1 40 40 = true ∧
    ex3b.width < ex3a.width ∧ ex3a.height < ex3b.height := by
  decide

/-- The record the resolver creates for `exParentJpeg` at 100x100: stored
inline (host_type 1 = Base64) with the base64 PNG payload as locator, but
with `format = 2` (JPEG, the requested format). -/
def c4row : Image :=
  { id := 2
    host_type := 1
    path := "aW5saW5l"
    width := 100
    height := 100
    parent_id := some 1
    wanted_height := some 100
    wanted_width := some 100
    format := 2 }

/-- Counterexample to claim C4: a variant produced by the resolver with
both actual dimensions below 200 is stored inline with PNG-encoded bytes,
but its `format` column keeps the REQUESTED format (here JPEG, code 2),
not PNG (code 0); the claimed `format == PNG` is false for this record. -/
theorem inline_variant_keeps_requested_format :
    (exParentJpeg.get_with_size exEnv exDB1 100 100).result = .ok c4row ∧
    c4row.host_type = ImageType.Base64.toCode ∧
    c4row.width < 200 ∧ c4row.height < 200 ∧
    ¬ c4row.format = ImageFormat.PNG.toCode ∧
    c4row.format = ImageFormat.JPEG.toCode := by
  decide

/-- Claim C4 as amended: every record built by `create_from_dynamic_image`
carries the requested format in its `format` column; when both actual
dimensions are strictly below 200 the record is inline (Base64) and its
locator is the base64 string of the PNG-encoded bytes, otherwise it is
file-backed (Local). -/
theorem create_from_dynamic_image_placement (env : Env) (img : DynamicImage)
    (suffix : String) (fmt : ImageFormat) (n : NewImage)
    (hok : NewImage.create_from_dynamic_image env img suffix fmt = .ok n) :
    n.format = fmt.toCode ∧
    (img.width < 200 ∧ img.height < 200 →
      n.host_type = ImageType.Base64.toCode ∧ env.encodePng img = .ok n.path) ∧
    (¬(img.width < 200 ∧ img.height < 200) →
      n.host_type = ImageType.Local.toCode) := by
  unfold NewImage.create_from_dynamic_image at hok
  by_cases hdim : img.width < 200 ∧ img.height < 200
  · rw [if_pos hdim] at hok
    cases he : env.encodePng img with
    | error e => rw [he] at hok; simp at hok
    | ok b64 =>
      rw [he] at hok
      cases hok
      exact ⟨rfl, fun _ => ⟨rfl, rfl⟩, fun hc => absurd hdim hc⟩
  · rw [if_neg hdim] at hok
    cases hs : env.createAndSave
        (genPath img.width img.height env.nowSecs suffix fmt.as_str) img fmt with
    | error e => rw [hs] at hok; simp at hok
    | ok u =>
      rw [hs] at hok
      cases hok
      exact ⟨rfl, fun hc => absurd hc hdim, fun _ => rfl⟩

/-- The insertable struct of the inline branch before provenance is
stamped. -/
def c4new : NewImage :=
  { host_type := 1
    path := "aW5saW5l"
    width := 100
    height := 100
    parent_id := none
    wanted_height := none
    wanted_width := none
    format := 2 }

/-- Witness for the amended claim C4 at a concrete input (100x100, JPEG
requested): inline placement with the requested format recorded. -/
theorem create_from_dynamic_image_placement_witness :
    c4new.format = ImageFormat.JPEG.toCode ∧
    ((100 : Nat) < 200 ∧ (100 : Nat) < 200 →
      c4new.host_type = ImageType.Base64.toCode ∧
      exEnv.encodePng ⟨100, 100⟩ = .ok c4new.path) ∧
    (¬((100 : Nat) < 200 ∧ (100 : Nat) < 200) →
      c4new.host_type = ImageType.Local.toCode) :=
  create_from_dynamic_image_placement exEnv ⟨100, 100⟩ "orig_1" .JPEG c4new (by decide)

/-- The insertable struct the resolver builds for `exParentJpeg` at
100x100, before the database assigns an id. -/
def c5new : NewImage :=
  { host_type := 1
    path := "aW5saW5l"
    width := 100
    height := 100
    parent_id := some 1
    wanted_height := some 100
    wanted_width := some 100
    format := 2 }

/-- Claim C5: on a lookup miss for a parent needing downscaling, the
resolver inserts a record carrying `parent_id = p.id` and the requested
size as wanted dimensions, and the record it returns is the one obtained
by re-reading the store at the id returned from the insert (`db.nextId`),
not the locally built struct. -/
theorem get_with_size_miss_creates (env : Env) (db : DB) (p : Image) (w h : Int)
    (n : NewImage)
    (hsize : p.width > w ∨ p.height > h)
    (hmiss : find_from_image db p.id w h = none)
    (hfresh : (db.rows.all fun r => r.id != db.nextId) = true)
    (hcreate : NewImage.create_from_image_with_size env p w h = .ok n) :
    (p.get_with_size env db w h).result = .ok (n.toRow db.nextId) ∧
    (n.toRow db.nextId).parent_id = some p.id ∧
    (n.toRow db.nextId).wanted_width = some w ∧
    (n.toRow db.nextId).wanted_height = some h ∧
    find (p.get_with_size env db w h).db db.nextId = some (n.toRow db.nextId) := by
  have hfresh' : ∀ r ∈ db.rows, r.id ≠ db.nextId := by
    intro r hr
    simpa using List.all_eq_true.mp hfresh r hr
  obtain ⟨hp, hwn, hhn⟩ := create_with_size_ok_fields hcreate
  have hout : p.get_with_size env db w h =
      ⟨.ok (n.toRow db.nextId), (Image.create_from db n).2,
        [.lookupChild p.id w h, .insertRow db.nextId, .readById db.nextId]⟩ := by
    unfold Image.get_with_size
    rw [if_pos hsize]
    simp only [hmiss, hcreate, find_insert_self n hfresh', rereadInserted]
    rfl
  rw [hout]
  refine ⟨rfl, ?_, ?_, ?_, ?_⟩
  · simpa [NewImage.toRow] using hp
  · simpa [NewImage.toRow] using hwn
  · simpa [NewImage.toRow] using hhn
  · exact find_insert_self n hfresh'

/-- Witness for claim C5 at a concrete input: the resolver stores `c5new`
under id 2 and returns the row re-read at that id. -/
theorem get_with_size_miss_creates_witness :
    (exParentJpeg.get_with_size exEnv exDB1 100 100).result = .ok (c5new.toRow 2) ∧
    (c5new.toRow 2).parent_id = some 1 ∧
    (c5new.toRow 2).wanted_width = some 100 ∧
    (c5new.toRow 2).wanted_height = some 100 ∧
    find (exParentJpeg.get_with_size exEnv exDB1 100 100).db 2 = some (c5new.toRow 2) :=
  get_with_size_miss_creates exEnv exDB1 exParentJpeg 100 100 c5new
    (by decide) (by decide) (by decide) (by decide)

/-- Claim C6: for a parent needing downscaling whose first call misses the
lookup and succeeds, an immediately following call with the same arguments
finds the row the first call inserted and returns that very record (hence
the same id). -/
theorem get_with_size_idempotent (env : Env) (db : DB) (p : Image) (w h : Int)
    (c1 : Image)
    (hsize : p.width > w ∨ p.height > h)
    (hmiss : find_from_image db p.id w h = none)
    (hfresh : (db.rows.all fun r => r.id != db.nextId) = true)
    (h1 : (p.get_with_size env db w h).result = .ok c1) :
    (p.get_with_size env (p.get_with_size env db w h).db w h).result = .ok c1 := by
  have hfresh' : ∀ r ∈ db.rows, r.id ≠ db.nextId := by
    intro r hr
    simpa using List.all_eq_true.mp hfresh r hr
  cases hc : NewImage.create_from_image_with_size env p w h with
  | err e =>
    have hout : p.get_with_size env db w h = ⟨.err e, db, [.lookupChild p.id w h]⟩ := by
      unfold Image.get_with_size
      rw [if_pos hsize]
      simp only [hmiss, hc]
    rw [hout] at h1
    simp at h1
  | panicked m =>
    have hout : p.get_with_size env db w h = ⟨.panicked m, db, [.lookupChild p.id w h]⟩ := by
      unfold Image.get_with_size
      rw [if_pos hsize]
      simp only [hmiss, hc]
    rw [hout] at h1
    simp at h1
  | ok n =>
    obtain ⟨hp, hwn, hhn⟩ := create_with_size_ok_fields hc
    have hout : p.get_with_size env db w h =
        ⟨.ok (n.toRow db.nextId), (Image.create_from db n).2,
          [.lookupChild p.id w h, .insertRow db.nextId, .readById db.nextId]⟩ := by
      unfold Image.get_with_size
      rw [if_pos hsize]
      simp only [hmiss, hc, find_insert_self n hfresh', rereadInserted]
      rfl
    rw [hout] at h1 ⊢
    have h1' : RunResult.ok (n.toRow db.nextId) = RunResult.ok c1 := h1
    cases h1'
    have hmatch : childMatches (n.toRow db.nextId) p.id w h = true :=
      childMatches_toRow hp hwn
    have hfilter :
        ((Image.create_from db n).2.rows.filter (fun r => childMatches r p.id w h)) =
          [n.toRow db.nextId] := by
      show ((db.rows ++ [n.toRow db.nextId]).filter (fun r => childMatches r p.id w h)) = _
      rw [List.filter_append]
      have h0 : db.rows.filter (fun r => childMatches r p.id w h) = [] := by
        rw [List.filter_eq_nil_iff]
        intro a ha
        simp [find_from_image_none_forall hmiss a ha]
      rw [h0]
      simp [hmatch]
    have hfind2 : find_from_image (Image.create_from db n).2 p.id w h =
        some (n.toRow db.nextId) := by
      unfold find_from_image
      rw [hfilter]
      rfl
    unfold Image.get_with_size
    rw [if_pos hsize]
    simp only [hfind2]

/-- Witness for claim C6 at a concrete input: the second resolve call for
`exParentJpeg` at 100x100 returns the row of id 2 created by the first. -/
theorem get_with_size_idempotent_witness :
    (exParentJpeg.get_with_size exEnv
        (exParentJpeg.get_with_size exEnv exDB1 100 100).db 100 100).result =
      .ok (c5new.toRow 2) :=
  get_with_size_idempotent exEnv exDB1 exParentJpeg 100 100 (c5new.toRow 2)
    (by decide) (by decide) (by decide) (by decide)

/-- Claim C7: a failing storage write surfaces as a tagged error of the
whole resolve call with the store untouched and no insert in the trace;
and `create_from_dynamic_image` propagates a failing `createAndSave`
before any record can be built, so the insert only ever runs after the
file write succeeded. -/
theorem storage_failure_no_persist (env : Env) (db : DB) (p : Image) (w h : Int)
    (e : FurryError) (img : DynamicImage) (suffix : String) (fmt : ImageFormat)
    (hsize : p.width > w ∨ p.height > h)
    (hmiss : find_from_image db p.id w h = none)
    (hcreate : NewImage.create_from_image_with_size env p w h = .err e)
    (hbig : ¬(img.width < 200 ∧ img.height < 200))
    (hsave : env.createAndSave
        (genPath img.width img.height env.nowSecs suffix fmt.as_str) img fmt =
      .error e) :
    p.get_with_size env db w h = ⟨.err e, db, [.lookupChild p.id w h]⟩ ∧
    NewImage.create_from_dynamic_image env img suffix fmt = .error e := by
  constructor
  · unfold Image.get_with_size
    rw [if_pos hsize]
    simp only [hmiss, hcreate]
  · unfold NewImage.create_from_dynamic_image
    rw [if_neg hbig]
    simp only [hsave]

/-- Witness for claim C7 at a concrete input: with a failing filesystem the
640x480 request for `exParentJpeg` returns the disk error and leaves the
store unchanged. -/
theorem storage_failure_no_persist_witness :
    exParentJpeg.get_with_size exEnvFail exDB1 640 480 =
      ⟨.err ⟨"disk full"⟩, exDB1, [.lookupChild 1 640 480]⟩ ∧
    NewImage.create_from_dynamic_image exEnvFail ⟨640, 480⟩ "orig_1" ImageFormat.JPEG =
      .error ⟨"disk full"⟩ :=
  storage_failure_no_persist exEnvFail exDB1 exParentJpeg 640 480 ⟨"disk full"⟩
    ⟨640, 480⟩ "orig_1" ImageFormat.JPEG
    (by decide) (by decide) (by decide) (by decide) (by decide)

/-- The row persisted from `NewImage.new ImageType.Local "/foo.png"`. -/
def zeroRow : Image :=
  { id := 1
    host_type := 0
    path := "/foo.png"
    width := 0
    height := 0
    parent_id := none
    wanted_height := none
    wanted_width := none
    format := 0 }

/-- Counterexample to claim C8: `Image.create_from` applied to the
constructible struct `NewImage.new ImageType.Local "/foo.png"` persists a
record whose width and height are both 0, so not every record persisted
through the operations of this module has positive dimensions. -/
theorem create_from_new_persists_zero_dims :
    Image.create_from ⟨[], 1⟩ (NewImage.new ImageType.Local "/foo.png") =
      (1, ⟨[zeroRow], 2⟩) ∧
    ¬ 0 < zeroRow.width ∧ ¬ 0 < zeroRow.height := by
  decide

/-- Claim C8 as amended: a record built by `create_from_dynamic_image`
from an image whose dimensions are positive and below 2^31 has positive
width and height, and persisting it only adds rows with positive
dimensions; the invariant does not extend to `NewImage.new`, which leaves
both dimensions at 0 (see the counterexample). -/
theorem create_from_dynamic_image_positive_dims (env : Env) (img : DynamicImage)
    (suffix : String) (fmt : ImageFormat) (n : NewImage) (db : DB) (r : Image)
    (hw0 : 0 < img.width) (hwb : img.width < 2 ^ 31)
    (hh0 : 0 < img.height) (hhb : img.height < 2 ^ 31)
    (hok : NewImage.create_from_dynamic_image env img suffix fmt = .ok n)
    (hr : r ∈ (Image.create_from db n).2.rows) :
    0 < n.width ∧ 0 < n.height ∧ (r ∈ db.rows ∨ (0 < r.width ∧ 0 < r.height)) := by
  have hdims : n.width = u32ToI32 img.width ∧ n.height = u32ToI32 img.height := by
    unfold NewImage.create_from_dynamic_image at hok
    by_cases hdim : img.width < 200 ∧ img.height < 200
    · rw [if_pos hdim] at hok
      cases he : env.encodePng img with
      | error e => rw [he] at hok; simp at hok
      | ok b64 => rw [he] at hok; cases hok; exact ⟨rfl, rfl⟩
    · rw [if_neg hdim] at hok
      cases hs : env.createAndSave
          (genPath img.width img.height env.nowSecs suffix fmt.as_str) img fmt with
      | error e => rw [hs] at hok; simp at hok
      | ok u => rw [hs] at hok; cases hok; exact ⟨rfl, rfl⟩
  have hwpos : 0 < n.width := hdims.1 ▸ u32ToI32_pos hw0 hwb
  have hhpos : 0 < n.height := hdims.2 ▸ u32ToI32_pos hh0 hhb
  refine ⟨hwpos, hhpos, ?_⟩
  unfold Image.create_from at hr
  rw [List.mem_append] at hr
  rcases hr with hr | hr
  · exact Or.inl hr
  · right
    simp only [List.mem_singleton] at hr
    subst hr
    exact ⟨by simpa [NewImage.toRow] using hwpos, by simpa [NewImage.toRow] using hhpos⟩

/-- Witness for the amended claim C8 at a concrete input: the inline
100x100 variant has positive dimensions, and the row added by its insert
does too. -/
theorem create_from_dynamic_image_positive_dims_witness :
    0 < c4new.width ∧ 0 < c4new.height ∧
    (c4new.toRow 1 ∈ ([] : List Image) ∨
      (0 < (c4new.toRow 1).width ∧ 0 < (c4new.toRow 1).height)) :=
  create_from_dynamic_image_positive_dims exEnv ⟨100, 100⟩ "orig_1" .JPEG c4new
    ⟨[], 1⟩ (c4new.toRow 1)
    (by decide) (by decide) (by decide) (by decide) (by decide) (by decide)

/-- The file-backed insertable struct built for a 640x480 output under
`exEnv`, before provenance is stamped. -/
def fbNew : NewImage :=
  { host_type := 0
    path := "/assets/uploads/640_480-1000-orig_1.png"
    width := 640
    height := 480
    parent_id := none
    wanted_height := none
    wanted_width := none
    format := 0 }

/-- Counterexample to claim C9: the stored locator of a file-backed record
begins with the slash character, because the generated relative path
"./assets/uploads/..." has its leading dot byte stripped before being
stored; a Unix path string beginning with a slash is not a relative path
(the reader re-prefixes a dot to rebuild one). -/
theorem filebacked_locator_not_relative :
    NewImage.create_from_dynamic_image exEnv ⟨640, 480⟩ "orig_1" ImageFormat.PNG =
      .ok fbNew ∧
    fbNew.path.data.head? = some '/' := by
  decide

/-- Claim C9 as amended: for every file-backed variant built by the
resolver, the stored locator is the generated path with its leading dot
removed — hence it begins with a slash — where the generated path embeds
the actual output width and height, the creation timestamp in seconds
since the Unix epoch, the suffix `orig_` followed by the parent id, and
the format-specific extension. -/
theorem filebacked_locator_shape (env : Env) (p : Image) (image : DynamicImage)
    (f : ImageFormat) (w h : Int) (n : NewImage)
    (hbig : ¬((env.resize image (toU32 w) (toU32 h)).width < 200 ∧
              (env.resize image (toU32 w) (toU32 h)).height < 200))
    (hok : finishResize env p image f w h = .ok n) :
    n.path = (genPath (env.resize image (toU32 w) (toU32 h)).width
        (env.resize image (toU32 w) (toU32 h)).height env.nowSecs
        ("orig_" ++ toString p.id) f.as_str).drop 1 ∧
    n.path.data.head? = some '/' ∧
    n.host_type = ImageType.Local.toCode ∧
    n.width = u32ToI32 (env.resize image (toU32 w) (toU32 h)).width ∧
    n.height = u32ToI32 (env.resize image (toU32 w) (toU32 h)).height := by
  unfold finishResize at hok
  cases hc : NewImage.create_from_dynamic_image env
      (env.resize image (toU32 w) (toU32 h)) ("orig_" ++ toString p.id) f with
  | error e => rw [hc] at hok; simp at hok
  | ok m =>
    rw [hc] at hok
    cases hok
    unfold NewImage.create_from_dynamic_image at hc
    rw [if_neg hbig] at hc
    cases hs : env.createAndSave
        (genPath (env.resize image (toU32 w) (toU32 h)).width
          (env.resize image (toU32 w) (toU32 h)).height env.nowSecs
          ("orig_" ++ toString p.id) f.as_str)
        (env.resize image (toU32 w) (toU32 h)) f with
    | error e => rw [hs] at hc; simp at hc
    | ok u =>
      rw [hs] at hc
      cases hc
      exact ⟨rfl, genPath_drop_head _ _ _ _ _, rfl, rfl, rfl⟩

/-- The insertable struct of the file-backed 640x480 variant of parent 1,
provenance included. -/
def c9new : NewImage :=
  { fbNew with
    parent_id := some 1
    wanted_height := some 480
    wanted_width := some 640 }

/-- Witness for the amended claim C9 at a concrete input: the 640x480
variant of parent 1 is stored at the generated uploads path with the
leading dot stripped. -/
theorem filebacked_locator_shape_witness :
    c9new.path = (genPath 640 480 1000 "orig_1" "png").drop 1 ∧
    c9new.path.data.head? = some '/' ∧
    c9new.host_type = ImageType.Local.toCode ∧
    c9new.width = u32ToI32 640 ∧
    c9new.height = u32ToI32 480 :=
  filebacked_locator_shape exEnv exParentPng ⟨800, 600⟩ ImageFormat.PNG 640 480
    c9new (by decide) (by decide)

/-- Claim C10: the re-read step after a successful insert aborts the
process (the `expect`) when the store returns no row, instead of returning
a tagged error; and in this model, where an inserted row is immediately
visible to `find`, no run of `get_with_size` can end in that abort. -/
theorem reread_missing_panics (dbA : DB) (tr : List Effect) (env : Env)
    (db : DB) (self : Image) (w h : Int) :
    (rereadInserted none dbA tr).result = .panicked "Inserting could not have failed" ∧
    (self.get_with_size env db w h).result ≠ .panicked "Inserting could not have failed" := by
  refine ⟨rfl, ?_⟩
  intro hcon
  unfold Image.get_with_size at hcon
  by_cases hc : self.width > w ∨ self.height > h
  · rw [if_pos hc] at hcon
    cases hf : find_from_image db self.id w h with
    | some i => rw [hf] at hcon; simp at hcon
    | none =>
      rw [hf] at hcon
      cases hcr : NewImage.create_from_image_with_size env self w h with
      | err e => rw [hcr] at hcon; simp at hcon
      | panicked m =>
        rw [hcr] at hcon
        have hm : RunResult.panicked m =
            RunResult.panicked "Inserting could not have failed" := hcon
        cases hm
        rcases create_with_size_panic_msg hcr with h1 | h1
        · exact absurd h1 (by decide)
        · exact absurd h1 (by decide)
      | ok n =>
        obtain ⟨y, hy⟩ := find_insert_isSome db n
        simp [hcr, hy, rereadInserted] at hcon
  · rw [if_neg hc] at hcon
    simp at hcon

/-- Witness for claim C10 at a concrete input: the abort message appears
exactly when the re-read yields nothing, and the concrete resolve run
does not end in that abort. -/
theorem reread_missing_panics_witness :
    (rereadInserted none exDB1 []).result = .panicked "Inserting could not have failed" ∧
    (exParentJpeg.get_with_size exEnv exDB1 100 100).result ≠
      .panicked "Inserting could not have failed" :=
  reread_missing_panics exDB1 [] exEnv exDB1 exParentJpeg 100 100
